import Mathlib

/-
Verification of the TARR Annunciator scheduling/playback core.

The development shallowly embeds the parts of the repository that the
schedule subsystem consists of: the 5-field cron-expression validator
(src/dev/deb-arm/validate_cron.py), the APScheduler-backed job
registration of the Windows variant (src/win64/app.py), the crontab-line
generation of the Raspberry-Pi variant (src/deb-arm/app.py), the JSON
configuration loader, the playback sequencer, and the announcement
routes.  Python strings are modelled as `List Char`; Python `int(...)`
is modelled for ASCII-digit inputs with an optional sign and
surrounding whitespace (Python additionally accepts underscore digit
separators and non-ASCII digits, which no cron text in this system
uses).  Calls into external libraries (APScheduler's `CronTrigger`
constructor, the system `crontab`) are abstracted as explicit function
parameters rather than being given semantics.
-/

namespace TARR

/-- Python `str.split()` with no separator: splits on runs of whitespace
and discards empty pieces.  Worker carrying the current (reversed)
piece. -/
def splitWsAux : List Char → List Char → List (List Char)
  | [], acc => if acc = [] then [] else [acc.reverse]
  | c :: rest, acc =>
    if c.isWhitespace then
      if acc = [] then splitWsAux rest []
      else acc.reverse :: splitWsAux rest []
    else splitWsAux rest (c :: acc)

/-- Python `str.split()` on a character list. -/
def splitWs (cs : List Char) : List (List Char) :=
  splitWsAux cs []

/-- Python `str.split()` returning Lean strings. -/
def splitWsStr (s : String) : List String :=
  (splitWs s.data).map String.mk

/-- Python `str.split(sep)` for a one-character separator: keeps empty
pieces, so `"a//b".split("/") = ["a", "", "b"]`. -/
def splitOnCharAux (sep : Char) : List Char → List Char → List (List Char)
  | [], acc => [acc.reverse]
  | c :: rest, acc =>
    if c = sep then acc.reverse :: splitOnCharAux sep rest []
    else splitOnCharAux sep rest (c :: acc)

/-- Python `str.split(sep)` for a one-character separator. -/
def splitOnChar (sep : Char) (cs : List Char) : List (List Char) :=
  splitOnCharAux sep cs []

/-- Python `str.strip()`: remove leading and trailing whitespace. -/
def pyStrip (cs : List Char) : List Char :=
  ((cs.dropWhile Char.isWhitespace).reverse.dropWhile Char.isWhitespace).reverse

/-- Value of a list of ASCII digits read in base 10. -/
def digitsVal (cs : List Char) : Nat :=
  cs.foldl (fun a c => 10 * a + (c.toNat - 48)) 0

/-- Python `int(s)` on the ASCII fragment: strip whitespace, allow one
leading sign, then decimal digits; `none` models `ValueError`. -/
def pyIntChars (cs0 : List Char) : Option Int :=
  match pyStrip cs0 with
  | [] => none
  | '+' :: rest =>
    if rest ≠ [] ∧ rest.all Char.isDigit then some (digitsVal rest) else none
  | '-' :: rest =>
    if rest ≠ [] ∧ rest.all Char.isDigit then some (-(digitsVal rest : Int)) else none
  | cs =>
    if cs.all Char.isDigit then some (digitsVal cs) else none

namespace DebArm

/-- Outcome of `validate_field` in src/dev/deb-arm/validate_cron.py:
`ok`/`bad` are the function's `True`/`False` returns, `exc` marks a
`ValueError` that escapes the function (only the tuple unpacking
`base, step = value.split('/')` can raise one that is not caught
locally) and is then caught by `validate_cron_expression`'s outer
handler. -/
inductive FieldRes
  | ok
  | bad
  | exc
deriving DecidableEq

/-- Python `all(...)` over lazily evaluated recursive calls: the first
`False` stops the iteration, an exception propagates. -/
def allRes : List FieldRes → FieldRes
  | [] => .ok
  | .ok :: rest => allRes rest
  | .bad :: _ => .bad
  | .exc :: _ => .exc

/-- The step test of `validate_field`: `base/step` where `base` may be
`*` (replaced by the field minimum); both parts must parse as ints,
`base` must lie in the domain and `step` must be positive. -/
def stepCond (lo hi : Int) (base step : List Char) : Bool :=
  match (if base = ['*'] then some lo else pyIntChars base), pyIntChars step with
  | some b, some st => decide (lo ≤ b ∧ b ≤ hi ∧ 0 < st)
  | _, _ => false

/-- The range test of `validate_field`: `start-end` with
`lo ≤ start ≤ end ≤ hi`. -/
def rangeCond (lo hi : Int) (a b : List Char) : Bool :=
  match pyIntChars a, pyIntChars b with
  | some x, some y => decide (lo ≤ x ∧ x ≤ y ∧ y ≤ hi)
  | _, _ => false

/-- The literal test of `validate_field`: a single integer inside the
domain. -/
def litCond (lo hi : Int) (cs : List Char) : Bool :=
  match pyIntChars cs with
  | some v => decide (lo ≤ v ∧ v ≤ hi)
  | none => false

/-- `validate_field` of src/dev/deb-arm/validate_cron.py.  The branches
are tested in the source's order: `*`, then `'/' in value`, then
`'-' in value`, then `',' in value`, then literal.  The comma branch
recurses on each stripped piece; the fuel only bounds that recursion
(pieces produced by splitting on `','` contain no `','`, so the
recursion depth never exceeds two and the fuel used below never runs
out). -/
def vfAux : Nat → List Char → Int → Int → FieldRes
  | 0, _, _, _ => .exc
  | Nat.succ f, value, lo, hi =>
    if value = ['*'] then .ok
    else if value.contains '/' then
      match splitOnChar '/' value with
      | [base, step] => if stepCond lo hi base step then .ok else .bad
      | _ => .exc
    else if value.contains '-' then
      match splitOnChar '-' value with
      | [a, b] => if rangeCond lo hi a b then .ok else .bad
      | _ => .bad
    else if value.contains ',' then
      allRes ((splitOnChar ',' value).map (fun p => vfAux f (pyStrip p) lo hi))
    else if litCond lo hi value then .ok else .bad

/-- `validate_field` at sufficient fuel. -/
def validateField (cs : List Char) (lo hi : Int) : FieldRes :=
  vfAux (cs.length + 2) cs lo hi

/-- The error classes of `validate_cron_expression`: the field-count
message, the per-field `Invalid ... field` message, and the generic
message produced by the outer exception handler. -/
inductive CronError
  | fieldCount (n : Nat)
  | badField (name : String)
  | pyError
deriving DecidableEq

/-- `validate_cron_expression` of src/dev/deb-arm/validate_cron.py:
split on whitespace, require exactly 5 parts, then validate minute,
hour, day, month and day-of-week in order against their domains. -/
def validate_cron_expression (expr : String) : Except CronError Unit :=
  match splitWs expr.data with
  | [minute, hour, day, month, dow] =>
    match validateField minute 0 59 with
    | .exc => .error .pyError
    | .bad => .error (.badField "minute")
    | .ok =>
      match validateField hour 0 23 with
      | .exc => .error .pyError
      | .bad => .error (.badField "hour")
      | .ok =>
        match validateField day 1 31 with
        | .exc => .error .pyError
        | .bad => .error (.badField "day")
        | .ok =>
          match validateField month 1 12 with
          | .exc => .error .pyError
          | .bad => .error (.badField "month")
          | .ok =>
            match validateField dow 0 7 with
            | .exc => .error .pyError
            | .bad => .error (.badField "day_of_week")
            | .ok => .ok ()
  | parts => .error (.fieldCount parts.length)

/-- Acceptance: `validate_cron_expression` returned its success tuple. -/
def cronAccepts (e : String) : Bool :=
  match validate_cron_expression e with
  | .ok _ => true
  | .error _ => false

/-- Field grammar written from claim C1's words, with the claimed
precedence comma-list first, then step, then range, then literal (and
`*` as the wildcard).  Used to compare the claim against the source's
`validate_field`. -/
def sfAux : Nat → List Char → Int → Int → Bool
  | 0, _, _, _ => false
  | Nat.succ f, value, lo, hi =>
    if value = ['*'] then true
    else if value.contains ',' then
      (splitOnChar ',' value).all (fun p => sfAux f (pyStrip p) lo hi)
    else if value.contains '/' then
      match splitOnChar '/' value with
      | [base, step] => stepCond lo hi base step
      | _ => false
    else if value.contains '-' then
      match splitOnChar '-' value with
      | [a, b] => rangeCond lo hi a b
      | _ => false
    else litCond lo hi value

/-- Claim C1's acceptance predicate: 5 whitespace-separated fields, each
valid for the claimed grammar against its domain. -/
def specCronAccepts (e : String) : Bool :=
  match splitWs e.data with
  | [m, h, d, mo, w] =>
    sfAux (m.length + 2) m 0 59 && sfAux (h.length + 2) h 0 23 &&
    sfAux (d.length + 2) d 1 31 && sfAux (mo.length + 2) mo 1 12 &&
    sfAux (w.length + 2) w 0 7
  | _ => false

/-- Field grammar of the amended claim: same atoms and domains, but with
the precedence the source actually uses — step first, then range, then
comma-list, then literal. -/
def afAux : Nat → List Char → Int → Int → Bool
  | 0, _, _, _ => false
  | Nat.succ f, value, lo, hi =>
    if value = ['*'] then true
    else if value.contains '/' then
      match splitOnChar '/' value with
      | [base, step] => stepCond lo hi base step
      | _ => false
    else if value.contains '-' then
      match splitOnChar '-' value with
      | [a, b] => rangeCond lo hi a b
      | _ => false
    else if value.contains ',' then
      (splitOnChar ',' value).all (fun p => afAux f (pyStrip p) lo hi)
    else litCond lo hi value

/-- The amended claim's per-field acceptance at sufficient fuel. -/
def amendedField (cs : List Char) (lo hi : Int) : Bool :=
  afAux (cs.length + 2) cs lo hi

/-- The amended claim's acceptance predicate for a whole expression. -/
def amendedCronAccepts (e : String) : Bool :=
  match splitWs e.data with
  | [m, h, d, mo, w] =>
    amendedField m 0 59 && amendedField h 0 23 && amendedField d 1 31 &&
    amendedField mo 1 12 && amendedField w 0 7
  | _ => false

end DebArm

/-- A `station_announcements` item of cron.json, as read by both app
variants: the keys `update_scheduler`/`update_crontab` access. -/
structure StationEntry where
  enabled : Bool
  cron : String
  train_number : String
  direction : String
  destination : String
  track_number : String
deriving DecidableEq

/-- A `promo_announcements` item of cron.json. -/
structure PromoEntry where
  enabled : Bool
  cron : String
  file : String
deriving DecidableEq

/-- A `safety_announcements` item of cron.json. -/
structure SafetyEntry where
  enabled : Bool
  cron : String
  language : String
deriving DecidableEq

/-- The schedule document: the three lists of cron.json in the order the
apps iterate over them. -/
structure CronDoc where
  station_announcements : List StationEntry
  promo_announcements : List PromoEntry
  safety_announcements : List SafetyEntry
deriving DecidableEq

/-- The three announcement categories. -/
inductive JobKind
  | station
  | promo
  | safety
deriving DecidableEq

/-- The job-id prefix used by win64 `update_scheduler`
(`station_{i}`, `promo_{i}`, `safety_{i}`). -/
def JobKind.idPrefix : JobKind → String
  | .station => "station_"
  | .promo => "promo_"
  | .safety => "safety_"

/-- The callback arguments bound for a station entry
(`[train_number, direction, destination, track_number]`). -/
def stationArgs (x : StationEntry) : List String :=
  [x.train_number, x.direction, x.destination, x.track_number]

namespace Win64

/-- Outcome of the external `CronTrigger(minute=..., hour=..., day=...,
month=..., day_of_week=...)` constructor call: `true` when construction
succeeds, `false` when it raises.  The five arguments are exactly the
values the win64 sources pass: minute and hour as the raw field text,
day/month/day-of-week as `None` when the field text is `*`.  APScheduler
is an external library, so its acceptance behaviour is kept abstract. -/
def CtAccept : Type :=
  String → String → Option String → Option String → Option String → Bool

/-- The `day if day != '*' else None` argument mapping used for the day,
month and day-of-week keyword arguments. -/
def noneIfStar (s : String) : Option String :=
  if s = "*" then none else some s

/-- One job of the APScheduler job table. -/
structure Job where
  id : String
  kind : JobKind
  idx : Nat
  args : List String
deriving DecidableEq

/-- What one loop iteration of win64 `update_scheduler` does with an
entry: add a job, log an error from the caught `CronTrigger` exception,
or do nothing. -/
inductive RegOutcome
  | added (j : Job)
  | warned (kind : JobKind) (i : Nat)
  | skipped
deriving DecidableEq

/-- One iteration of win64 `update_scheduler`'s per-category loop: skip
disabled entries; split the cron text; if it has exactly 5 parts, build
the `CronTrigger` and on success `add_job` with id `{kind}_{i}`; a
raising constructor is caught and logged; a part count other than 5
falls out of the `if` silently. -/
def regOne (ct : CtAccept) (kind : JobKind) (i : Nat) (enabled : Bool)
    (cron : String) (args : List String) : RegOutcome :=
  if enabled then
    match splitWsStr cron with
    | [minute, hour, day, month, dow] =>
      if ct minute hour (noneIfStar day) (noneIfStar month) (noneIfStar dow) then
        .added ⟨kind.idPrefix ++ toString i, kind, i, args⟩
      else .warned kind i
    | _ => .skipped
  else .skipped

/-- The per-category loop of `update_scheduler`, with `enumerate`'s
running index. -/
def regListAux {α : Type} (ct : CtAccept) (kind : JobKind) (en : α → Bool)
    (cr : α → String) (ar : α → List String) : Nat → List α → List RegOutcome
  | _, [] => []
  | i, x :: xs =>
    regOne ct kind i (en x) (cr x) (ar x) :: regListAux ct kind en cr ar (i + 1) xs

/-- All loop outcomes of one `update_scheduler` run, in source order:
station announcements, then promo, then safety. -/
def regOutcomes (ct : CtAccept) (doc : CronDoc) : List RegOutcome :=
  regListAux ct .station (fun x => x.enabled) (fun x => x.cron) stationArgs 0
      doc.station_announcements
  ++ regListAux ct .promo (fun x => x.enabled) (fun x => x.cron) (fun x => [x.file]) 0
      doc.promo_announcements
  ++ regListAux ct .safety (fun x => x.enabled) (fun x => x.cron) (fun x => [x.language]) 0
      doc.safety_announcements

/-- The jobs added by a run. -/
def outJobs (outs : List RegOutcome) : List Job :=
  outs.filterMap (fun o => match o with | .added j => some j | _ => none)

/-- The scheduling errors logged by a run, as `(kind, index)` of the
offending entry. -/
def outWarnings (outs : List RegOutcome) : List (JobKind × Nat) :=
  outs.filterMap (fun o => match o with | .warned k i => some (k, i) | _ => none)

/-- win64 `update_scheduler`: `scheduler.remove_all_jobs()` discards the
whole previous job table (the `prev` argument is ignored), then one job
is registered per enabled entry whose cron text splits into 5 fields and
whose `CronTrigger` construction succeeds.  Returns the new job table
and the logged scheduling errors. -/
def update_scheduler (ct : CtAccept) (doc : CronDoc) (prev : List Job) :
    List Job × List (JobKind × Nat) :=
  (outJobs (regOutcomes ct doc), outWarnings (regOutcomes ct doc))

/-- Result of the `/api/schedule` POST handler: the success body carries
`active_jobs = len(scheduler.get_jobs())`; any exception becomes the
error body. -/
inductive ApiResult
  | success (active_jobs : Nat)
  | error
deriving DecidableEq

/-- win64 `api_schedule` POST: `save_json('cron', ...)` then
`update_scheduler()` inside one `try`.  `saveOk` abstracts whether the
document write raises; when it does, `update_scheduler` is never
reached, the handler returns the error body and the job table keeps its
previous contents. -/
def api_schedule_post (ct : CtAccept) (saveOk : Bool) (doc : CronDoc)
    (prev : List Job) : ApiResult × List Job :=
  if saveOk then
    (.success (update_scheduler ct doc prev).1.length, (update_scheduler ct doc prev).1)
  else (.error, prev)

end Win64

namespace Win64Dev

/-- `validate_cron_expression` of src/dev/win64/validate_cron.py: split
on whitespace, require exactly 5 parts, then attempt to build the same
`CronTrigger` as the registration path (minute/hour verbatim,
day/month/day-of-week mapped through `x if x != '*' else None`); the
`try` turns a raising constructor into the failure tuple.  Returns the
success flag. -/
def validate_cron_expression (ct : Win64.CtAccept) (e : String) : Bool :=
  match splitWsStr e with
  | [minute, hour, day, month, dow] =>
    ct minute hour (Win64.noneIfStar day) (Win64.noneIfStar month) (Win64.noneIfStar dow)
  | _ => false

end Win64Dev

namespace DebArm

/-- One generated crontab line of deb-arm `update_crontab`: the entry's
cron text verbatim, followed by the command invoking app.py with the
entry's payload. -/
structure CronLine where
  cron : String
  kind : JobKind
  args : List String
deriving DecidableEq

/-- deb-arm `update_crontab`: for every enabled entry — station list
first, then promo, then safety — a crontab line is emitted carrying the
entry's cron text verbatim.  No cron validation of any kind happens on
this path.  (The surrounding code also prepends a header comment and
re-installs the merged crontab via the external `crontab` binary; the
value here is the list of generated TARR job lines.) -/
def update_crontab (doc : CronDoc) : List CronLine :=
  (doc.station_announcements.filter (fun x => x.enabled)).map
      (fun x => ⟨x.cron, .station, stationArgs x⟩)
  ++ (doc.promo_announcements.filter (fun x => x.enabled)).map
      (fun x => ⟨x.cron, .promo, [x.file]⟩)
  ++ (doc.safety_announcements.filter (fun x => x.enabled)).map
      (fun x => ⟨x.cron, .safety, [x.language]⟩)

end DebArm

/-- Modelled from the spec: §4.2 `tick` fires exactly the registered
jobs whose cron rule matches the current wall-clock minute.  The
matching itself is performed by the external scheduling backend
(APScheduler's trigger evaluation, or system cron for the deb-arm
variant), so it is abstracted as the predicate `matches`. -/
def tick (matchesNow : Win64.Job → Bool) (jobs : List Win64.Job) : List Win64.Job :=
  jobs.filter matchesNow

/-- File-system operations performed by the persistence code. -/
inductive FsOp
  | openTrunc (path : String)
  | writeAll (path : String)
  | rename (src dst : String)
deriving DecidableEq

/-- `save_json` of win64/deb-arm app.py: `open(path, 'w')` truncates the
target file in place and `json.dump` writes the document into it.  No
temporary file and no rename are involved. -/
def save_json_trace (path : String) : List FsOp :=
  [.openTrunc path, .writeAll path]

/-- Whether a trace ever renames some file onto `final` — the swap step
of a write-to-temporary-then-swap atomic overwrite. -/
def usesRenameOnto (final : String) (tr : List FsOp) : Bool :=
  tr.any (fun op => match op with | .rename _ dst => dst == final | _ => false)

/-- The schedule document's well-known location,
`JSON_FILES['cron']` relative to the app directory. -/
def cronJsonPath : String := "json/cron.json"

/-- JSON values, with objects as key/value association lists (Python
dicts with their keys unique and in insertion order). -/
inductive Json
  | null
  | bool (b : Bool)
  | num (n : Int)
  | str (s : String)
  | arr (l : List Json)
  | obj (kvs : List (String × Json))

/-- Python `name in data` / `data[name]` on a dict. -/
def lookupKey (kvs : List (String × Json)) (k : String) : Option Json :=
  (kvs.find? (fun p => p.1 == k)).map (fun p => p.2)

/-- `load_json` of win64/deb-arm app.py: a missing file yields the empty
list `[]`; otherwise the parsed value is unwrapped as follows — a dict
containing the requested name as a key yields that key's value, a dict
with exactly one key yields that key's value, anything else is returned
unchanged. -/
def load_json (name : String) (stored : Option Json) : Json :=
  match stored with
  | none => .arr []
  | some data =>
    match data with
    | .obj kvs =>
      match lookupKey kvs name with
      | some v => v
      | none =>
        match kvs with
        | [kv] => kv.2
        | _ => .obj kvs
    | other => other

/-- One observable event of `play_audio_sequence`. -/
inductive PlayEv
  | played (f : String)
  | missingLogged (f : String)
  | gap
deriving DecidableEq

/-- win64 `play_audio_sequence`: for each file in order, an existing
file is played (followed by the fixed `time.sleep(0.3)` gap) and a
missing file is logged and skipped; the loop always continues with the
remaining files.  `ex` abstracts `os.path.exists`. -/
def play_audio_sequence (ex : String → Bool) : List String → List PlayEv
  | [] => []
  | f :: rest =>
    if ex f then .played f :: .gap :: play_audio_sequence ex rest
    else .missingLogged f :: play_audio_sequence ex rest

/-- The clips a playback run attempted, in order. -/
def playedFiles (evs : List PlayEv) : List String :=
  evs.filterMap (fun e => match e with | .played f => some f | _ => none)

/-- The 5-clip sequence built by `play_station_announcement`: chime,
train, direction, destination, track. -/
def station_sequence (train dir dest track : String) : List String :=
  ["chime.mp3",
   "train/" ++ train ++ ".mp3",
   "direction/" ++ dir ++ ".mp3",
   "destination/" ++ dest ++ ".mp3",
   "track/" ++ track ++ ".mp3"]

/-- Observable actions of the announcement entry points: clearing the
`current_announcement` marker (`stop_safety_announcement`) and starting
a playback sequence. -/
inductive UiEvent
  | clearMarker
  | startSeq (kind : JobKind)
deriving DecidableEq

/-- Whether an event starts a sequence. -/
def isStart (e : UiEvent) : Bool :=
  match e with | .startSeq _ => true | _ => false

/-- The recorded marker is cleared before the sequence starts: the trace
opens with `clearMarker` and a sequence start follows. -/
def clearPrecedesStart : List UiEvent → Bool
  | [] => false
  | .clearMarker :: rest => rest.any isStart
  | .startSeq _ :: _ => false

/-- win64 `play_announcement_route` (`/play_announcement`):
`stop_safety_announcement()` clears the marker, then
`play_station_announcement` starts the sequence. -/
def play_announcement_route_events : List UiEvent :=
  [.clearMarker, .startSeq .station]

/-- win64 `play_safety_route` (`/play_safety_announcement`):
`stop_safety_announcement()` then `play_safety`. -/
def play_safety_route_events : List UiEvent :=
  [.clearMarker, .startSeq .safety]

/-- win64 `api_station_announcement` (`/api/announce/station`): after
parameter validation it calls `play_station_announcement` directly —
`stop_safety_announcement` is never called on this path. -/
def api_station_announcement_events (paramsValid : Bool) : List UiEvent :=
  if paramsValid then [.startSeq .station] else []

/-- win64 `api_safety_announcement` (`/api/announce/safety`): after
parameter and language validation it calls `play_safety` directly, with
no marker clearing. -/
def api_safety_announcement_events (paramsValid : Bool) : List UiEvent :=
  if paramsValid then [.startSeq .safety] else []

/-- A scheduled station job firing: `update_scheduler` binds
`func=play_station_announcement` directly, so the callback starts the
sequence without touching the marker. -/
def scheduled_station_fire_events : List UiEvent :=
  [.startSeq .station]

/-- A scheduled safety job firing: `update_scheduler` binds
`func=play_safety` directly. -/
def scheduled_safety_fire_events : List UiEvent :=
  [.startSeq .safety]


/-- Whether the entry of `doc` at a category and index is enabled. -/
def entryEnabled (doc : CronDoc) : JobKind → Nat → Option Bool
  | .station, i => (doc.station_announcements.get? i).map (fun x => x.enabled)
  | .promo, i => (doc.promo_announcements.get? i).map (fun x => x.enabled)
  | .safety, i => (doc.safety_announcements.get? i).map (fun x => x.enabled)

/-- Scenario C of the spec: one enabled station entry with the invalid
cron `99 8 * * *` alongside one valid enabled promo entry. -/
def scenarioCDoc : CronDoc :=
  ⟨[⟨true, "99 8 * * *", "1", "westbound", "goodwin_station", "1"⟩],
   [⟨true, "0 9 * * *", "promo_english.mp3"⟩],
   []⟩

/-- Scenario B of the spec: a single disabled station entry. -/
def scenarioBDoc : CronDoc :=
  ⟨[⟨false, "0 8 * * 1-5", "1", "westbound", "goodwin_station", "1"⟩], [], []⟩

/-- A document whose only entry is enabled but carries an invalid cron
expression (minute 99). -/
def invalidOnlyDoc : CronDoc :=
  ⟨[⟨true, "99 8 * * *", "1", "westbound", "goodwin_station", "1"⟩], [], []⟩

/-- A document with two enabled station entries whose weekday fields are
the two representations of Sunday, `0` and `7`. -/
def sundayDoc : CronDoc :=
  ⟨[⟨true, "0 8 * * 0", "1", "westbound", "goodwin_station", "1"⟩,
    ⟨true, "0 8 * * 7", "1", "westbound", "goodwin_station", "1"⟩], [], []⟩

/-- A document with a single enabled station entry. -/
def enabledOnlyDoc : CronDoc :=
  ⟨[⟨true, "0 8 * * 1", "1", "westbound", "goodwin_station", "1"⟩], [], []⟩

/-- The empty schedule document serialized with its three named lists —
what claim C8 says `load` returns on missing storage. -/
def threeEmptyDoc : Json :=
  .obj [("station_announcements", .arr []),
        ("promo_announcements", .arr []),
        ("safety_announcements", .arr [])]

/-- A stored schedule document with the three named lists plus an
unknown top-level key. -/
def storedWithExtra : Json :=
  .obj [("station_announcements", .arr []),
        ("promo_announcements", .arr []),
        ("safety_announcements", .arr []),
        ("extra_key", .num 1)]

namespace DebArm

theorem allRes_ok_iff (L : List FieldRes) : allRes L = .ok ↔ ∀ r ∈ L, r = .ok := by
  induction L with
  | nil => simp [allRes]
  | cons r rest ih =>
    cases r with
    | ok => simpa [allRes] using ih
    | bad =>
      simp only [allRes]
      constructor
      · intro h; exact absurd h (by simp)
      · intro h; exact absurd (h _ (List.mem_cons_self _ _)) (by simp)
    | exc =>
      simp only [allRes]
      constructor
      · intro h; exact absurd h (by simp)
      · intro h; exact absurd (h _ (List.mem_cons_self _ _)) (by simp)

theorem vfAux_ok_iff_afAux (f : Nat) : ∀ (value : List Char) (lo hi : Int),
    vfAux f value lo hi = .ok ↔ afAux f value lo hi = true := by
  induction f with
  | zero =>
    intro value lo hi
    constructor
    · intro h; exact absurd h (by simp [vfAux])
    · intro h; exact absurd h (by simp [afAux])
  | succ f ih =>
    intro value lo hi
    simp only [vfAux, afAux]
    by_cases h1 : value = ['*']
    · simp [h1]
    · simp only [if_neg h1]
      by_cases h2 : value.contains '/' = true
      · simp only [if_pos h2]
        cases hsp : splitOnChar '/' value with
        | nil => simp
        | cons b rest =>
          cases rest with
          | nil => simp
          | cons s rest2 =>
            cases rest2 with
            | nil => by_cases hc : stepCond lo hi b s = true <;> simp [hc]
            | cons t rest3 => simp
      · simp only [if_neg h2]
        by_cases h3 : value.contains '-' = true
        · simp only [if_pos h3]
          cases hsp : splitOnChar '-' value with
          | nil => simp
          | cons a rest =>
            cases rest with
            | nil => simp
            | cons b rest2 =>
              cases rest2 with
              | nil => by_cases hc : rangeCond lo hi a b = true <;> simp [hc]
              | cons t rest3 => simp
        · simp only [if_neg h3]
          by_cases h4 : value.contains ',' = true
          · simp only [if_pos h4]
            rw [allRes_ok_iff, List.all_eq_true]
            constructor
            · intro hall p hp
              exact (ih _ _ _).mp (hall _ (List.mem_map_of_mem _ hp))
            · intro hall r hr
              obtain ⟨p, hp, rfl⟩ := List.mem_map.mp hr
              exact (ih _ _ _).mpr (hall p hp)
          · simp only [if_neg h4]
            by_cases hc : litCond lo hi value = true <;> simp [hc]

theorem validateField_ok_iff (cs : List Char) (lo hi : Int) :
    validateField cs lo hi = .ok ↔ amendedField cs lo hi = true :=
  vfAux_ok_iff_afAux _ cs lo hi

theorem cronAccepts_eq_fields {e : String} {m hr d mo w : List Char}
    (hsp : splitWs e.data = [m, hr, d, mo, w]) :
    cronAccepts e = true ↔
      validateField m 0 59 = .ok ∧ validateField hr 0 23 = .ok ∧
      validateField d 1 31 = .ok ∧ validateField mo 1 12 = .ok ∧
      validateField w 0 7 = .ok := by
  simp only [cronAccepts, validate_cron_expression, hsp]
  cases hm : validateField m 0 59 <;>
    cases hh : validateField hr 0 23 <;>
      cases hd : validateField d 1 31 <;>
        cases hmo : validateField mo 1 12 <;>
          cases hw : validateField w 0 7 <;>
            simp_all

theorem cronAccepts_iff_amended (e : String) :
    cronAccepts e = true ↔ amendedCronAccepts e = true := by
  rcases hsp : splitWs e.data with _ | ⟨m, _ | ⟨hr, _ | ⟨d, _ | ⟨mo, _ | ⟨w, _ | ⟨x, rest⟩⟩⟩⟩⟩⟩
  · simp [cronAccepts, validate_cron_expression, amendedCronAccepts, hsp]
  · simp [cronAccepts, validate_cron_expression, amendedCronAccepts, hsp]
  · simp [cronAccepts, validate_cron_expression, amendedCronAccepts, hsp]
  · simp [cronAccepts, validate_cron_expression, amendedCronAccepts, hsp]
  · simp [cronAccepts, validate_cron_expression, amendedCronAccepts, hsp]
  · rw [cronAccepts_eq_fields hsp]
    simp only [amendedCronAccepts, hsp, validateField_ok_iff, Bool.and_eq_true, and_assoc]
  · simp [cronAccepts, validate_cron_expression, amendedCronAccepts, hsp]

theorem validate_fieldCount {e : String} (h : (splitWs e.data).length ≠ 5) :
    validate_cron_expression e = .error (.fieldCount (splitWs e.data).length) := by
  rcases hsp : splitWs e.data with _ | ⟨m, _ | ⟨hr, _ | ⟨d, _ | ⟨mo, _ | ⟨w, _ | ⟨x, rest⟩⟩⟩⟩⟩⟩
  · simp [validate_cron_expression, hsp]
  · simp [validate_cron_expression, hsp]
  · simp [validate_cron_expression, hsp]
  · simp [validate_cron_expression, hsp]
  · simp [validate_cron_expression, hsp]
  · rw [hsp] at h; simp at h
  · simp [validate_cron_expression, hsp]

end DebArm

namespace Win64

theorem regOne_added {ct : CtAccept} {kind : JobKind} {i : Nat} {enb : Bool}
    {cron : String} {args : List String} {j : Job}
    (h : regOne ct kind i enb cron args = .added j) :
    enb = true ∧ j = ⟨kind.idPrefix ++ toString i, kind, i, args⟩ := by
  cases enb with
  | false => simp [regOne] at h
  | true =>
    refine ⟨rfl, ?_⟩
    unfold regOne at h
    rcases hsp : splitWsStr cron with _ | ⟨m, _ | ⟨hr, _ | ⟨d, _ | ⟨mo, _ | ⟨w, _ | ⟨x, rest⟩⟩⟩⟩⟩⟩ <;>
      rw [hsp] at h
    · simp at h
    · simp at h
    · simp at h
    · simp at h
    · simp at h
    · by_cases hct : ct m hr (noneIfStar d) (noneIfStar mo) (noneIfStar w) = true
      · simp only [if_true, hct, ite_true] at h
        exact (RegOutcome.added.inj h).symm
      · simp [hct] at h
    · simp at h

theorem outJobs_regListAux_mem {α : Type} (ct : CtAccept) (kind : JobKind)
    (en : α → Bool) (cr : α → String) (ar : α → List String) :
    ∀ (l : List α) (i : Nat) (j : Job),
      j ∈ outJobs (regListAux ct kind en cr ar i l) →
      ∃ k x, l.get? k = some x ∧ en x = true ∧ j.kind = kind ∧ j.idx = i + k ∧
        j.id = kind.idPrefix ++ toString (i + k) ∧ j.args = ar x := by
  intro l
  induction l with
  | nil => intro i j hj; simp [regListAux, outJobs] at hj
  | cons x xs ih =>
    intro i j hj
    rw [regListAux] at hj
    cases hro : regOne ct kind i (en x) (cr x) (ar x) with
    | added j0 =>
      rw [hro] at hj
      simp only [outJobs, List.filterMap_cons] at hj
      rcases (List.mem_cons).mp hj with hj0 | hjrest
      · obtain ⟨hen, hj0eq⟩ := regOne_added hro
        subst hj0
        refine ⟨0, x, by simp, hen, ?_⟩
        rw [hj0eq]
        simp
      · obtain ⟨k, x2, hget, hen, hkind, hidx, hid, hargs⟩ := ih (i + 1) j hjrest
        refine ⟨k + 1, x2, by simpa using hget, hen, hkind, ?_, ?_, hargs⟩
        · rw [hidx]
          omega
        · rw [hid]
          have he : i + 1 + k = i + (k + 1) := by omega
          rw [he]
    | warned k0 i0 =>
      rw [hro] at hj
      simp only [outJobs, List.filterMap_cons] at hj
      obtain ⟨k, x2, hget, hen, hkind, hidx, hid, hargs⟩ := ih (i + 1) j hj
      refine ⟨k + 1, x2, by simpa using hget, hen, hkind, ?_, ?_, hargs⟩
      · rw [hidx]
        omega
      · rw [hid]
        have he : i + 1 + k = i + (k + 1) := by omega
        rw [he]
    | skipped =>
      rw [hro] at hj
      simp only [outJobs, List.filterMap_cons] at hj
      obtain ⟨k, x2, hget, hen, hkind, hidx, hid, hargs⟩ := ih (i + 1) j hj
      refine ⟨k + 1, x2, by simpa using hget, hen, hkind, ?_, ?_, hargs⟩
      · rw [hidx]
        omega
      · rw [hid]
        have he : i + 1 + k = i + (k + 1) := by omega
        rw [he]

theorem update_scheduler_mem_enabled {ct : CtAccept} {doc : CronDoc}
    {prev : List Job} {j : Job} (hj : j ∈ (update_scheduler ct doc prev).1) :
    entryEnabled doc j.kind j.idx = some true ∧
      j.id = j.kind.idPrefix ++ toString j.idx := by
  have hj2 : j ∈ outJobs (regOutcomes ct doc) := hj
  rw [regOutcomes] at hj2
  simp only [outJobs, List.filterMap_append] at hj2
  rcases (List.mem_append).mp hj2 with h12 | h3
  · rcases (List.mem_append).mp h12 with h1 | h2
    · obtain ⟨k, x, hget, hen, hkind, hidx, hid, hargs⟩ :=
        outJobs_regListAux_mem ct .station _ _ _ doc.station_announcements 0 j h1
      constructor
      · rw [hkind, hidx]
        simp only [Nat.zero_add, entryEnabled]
        rw [hget]
        simp [hen]
      · rw [hid, hkind, hidx]
    · obtain ⟨k, x, hget, hen, hkind, hidx, hid, hargs⟩ :=
        outJobs_regListAux_mem ct .promo _ _ _ doc.promo_announcements 0 j h2
      constructor
      · rw [hkind, hidx]
        simp only [Nat.zero_add, entryEnabled]
        rw [hget]
        simp [hen]
      · rw [hid, hkind, hidx]
  · obtain ⟨k, x, hget, hen, hkind, hidx, hid, hargs⟩ :=
      outJobs_regListAux_mem ct .safety _ _ _ doc.safety_announcements 0 j h3
    constructor
    · rw [hkind, hidx]
      simp only [Nat.zero_add, entryEnabled]
      rw [hget]
      simp [hen]
    · rw [hid, hkind, hidx]

end Win64

/-- C1 (counterexample): the claim's grammar — comma-list split tried
before step and range — accepts the minute field `1-2,3`, but the
source's `validate_cron_expression` tests `'-' in value` before
`',' in value`, splits `1-2,3` on `-`, fails to parse `2,3` as an
integer and rejects the whole expression.  So the claimed equivalence
fails at `1-2,3 * * * *`. -/
theorem C1_counterexample :
    DebArm.specCronAccepts "1-2,3 * * * *" = true
    ∧ DebArm.cronAccepts "1-2,3 * * * *" = false :=
  ⟨rfl, rfl⟩

/-- C1 (amended): `validate_cron_expression` succeeds exactly on inputs
with 5 whitespace-separated fields in which every field — parsed with
precedence step (`base/step`, base `*` meaning the field minimum, step
positive) first, then range (start ≤ end), then comma-list (split and
recurse), then literal — resolves only to values inside its domain
(minute 0-59, hour 0-23, day 1-31, month 1-12, weekday 0-7); an input
with a different field count fails with the field-count error. -/
theorem C1_amended (e : String) :
    (DebArm.cronAccepts e = true ↔ DebArm.amendedCronAccepts e = true)
    ∧ ((splitWs e.data).length ≠ 5 →
        DebArm.validate_cron_expression e
          = .error (.fieldCount (splitWs e.data).length)) :=
  ⟨DebArm.cronAccepts_iff_amended e, fun h => DebArm.validate_fieldCount h⟩

/-- C1 (witness): the amended equivalence evaluated at `0 8 * * 1-5`,
and the field-count error at the 4-field input `0 8 * *`. -/
theorem C1_amended_witness :
    (DebArm.cronAccepts "0 8 * * 1-5" = true
      ↔ DebArm.amendedCronAccepts "0 8 * * 1-5" = true)
    ∧ DebArm.validate_cron_expression "0 8 * *" = .error (.fieldCount 4) :=
  ⟨(C1_amended "0 8 * * 1-5").1, (C1_amended "0 8 * *").2 (by decide)⟩

/-- C2 (supporting evaluation): the §4.1 validator accepts both weekday
representations of Sunday, `0` and `7`, without unifying them, and
deb-arm `update_crontab` emits both entries verbatim into the crontab —
so both representations reach downstream trigger evaluation, which is
exactly why the win64 path's hand-off to APScheduler (day_of_week
domain 0-6, 0 = Monday, 7 rejected) breaks the claimed equivalence. -/
theorem C2_sunday_reps_reach_downstream :
    DebArm.cronAccepts "0 8 * * 0" = true
    ∧ DebArm.cronAccepts "0 8 * * 7" = true
    ∧ (DebArm.update_crontab sundayDoc).map (fun l => l.cron)
        = ["0 8 * * 0", "0 8 * * 7"] :=
  ⟨rfl, rfl, rfl⟩

/-- C3: `apply` is lenient per entry.  In scenario C — one enabled
station entry whose cron `99 8 * * *` the CronTrigger constructor
rejects, one enabled promo entry it accepts — the invalid entry is
skipped with one logged scheduling warning, the POST succeeds, the valid
promo job is registered, and `active_jobs = 1`. -/
theorem C3_lenient_apply (ct : Win64.CtAccept) (prev : List Win64.Job)
    (hbad : ct "99" "8" none none none = false)
    (hgood : ct "0" "9" none none none = true) :
    Win64.api_schedule_post ct true scenarioCDoc prev
      = (.success 1, [⟨"promo_0", .promo, 0, ["promo_english.mp3"]⟩])
    ∧ Win64.outWarnings (Win64.regOutcomes ct scenarioCDoc) = [(.station, 0)] := by
  have e1 : Win64.regOne ct .station 0 true "99 8 * * *"
      ["1", "westbound", "goodwin_station", "1"] = .warned .station 0 := by
    unfold Win64.regOne
    rw [show splitWsStr "99 8 * * *" = ["99", "8", "*", "*", "*"] from rfl]
    simp [hbad, show Win64.noneIfStar "*" = (none : Option String) from rfl]
  have e2 : Win64.regOne ct .promo 0 true "0 9 * * *" ["promo_english.mp3"]
      = .added ⟨JobKind.promo.idPrefix ++ toString 0, .promo, 0,
          ["promo_english.mp3"]⟩ := by
    unfold Win64.regOne
    rw [show splitWsStr "0 9 * * *" = ["0", "9", "*", "*", "*"] from rfl]
    simp [hgood, show Win64.noneIfStar "*" = (none : Option String) from rfl]
  have hro : Win64.regOutcomes ct scenarioCDoc
      = [.warned .station 0,
         .added ⟨JobKind.promo.idPrefix ++ toString 0, .promo, 0,
           ["promo_english.mp3"]⟩] := by
    simp only [Win64.regOutcomes, scenarioCDoc, Win64.regListAux, stationArgs]
    rw [e1, e2]
    rfl
  constructor
  · simp only [Win64.api_schedule_post, Win64.update_scheduler, hro]
    rfl
  · simp only [Win64.outWarnings, hro]
    rfl

/-- C3 (witness): scenario C evaluated at a concrete CronTrigger
acceptance predicate that rejects minute 99 and accepts the promo
rule. -/
theorem C3_witness :
    Win64.api_schedule_post (fun m _ _ _ _ => m == "0") true scenarioCDoc []
      = (.success 1, [⟨"promo_0", .promo, 0, ["promo_english.mp3"]⟩]) :=
  (C3_lenient_apply (fun m _ _ _ _ => m == "0") [] rfl rfl).1

/-- C4 (counterexample): deb-arm `update_crontab` performs no cron
validation: the enabled entry with cron `99 8 * * *` — rejected by the
§4.1 validator — is still emitted as a crontab job line, so the set of
registered entries is not the set of enabled entries the validator
accepts. -/
theorem C4_counterexample :
    (DebArm.update_crontab invalidOnlyDoc).map (fun l => l.cron) = ["99 8 * * *"]
    ∧ DebArm.cronAccepts "99 8 * * *" = false :=
  ⟨rfl, rfl⟩

/-- C4 (amended): on win64, an enabled entry is registered by
`update_scheduler` exactly when the standalone win64 validator (which
performs the same 5-field split and the identical CronTrigger
construction) accepts its cron text — for every CronTrigger acceptance
behaviour `ct`; on deb-arm, `update_crontab` validates nothing and emits
one crontab line per enabled entry regardless of the cron text. -/
theorem C4_amended :
    (∀ (ct : Win64.CtAccept) (kind : JobKind) (i : Nat) (cron : String)
        (args : List String),
      (∃ j, Win64.regOne ct kind i true cron args = .added j)
        ↔ Win64Dev.validate_cron_expression ct cron = true)
    ∧ (∀ doc : CronDoc, (DebArm.update_crontab doc).length
        = (doc.station_announcements.filter (fun x => x.enabled)).length
          + (doc.promo_announcements.filter (fun x => x.enabled)).length
          + (doc.safety_announcements.filter (fun x => x.enabled)).length) := by
  constructor
  · intro ct kind i cron args
    rcases hsp : splitWsStr cron with _ | ⟨m, _ | ⟨hr, _ | ⟨d, _ | ⟨mo, _ | ⟨w, _ | ⟨x, rest⟩⟩⟩⟩⟩⟩
    · simp [Win64.regOne, Win64Dev.validate_cron_expression, hsp]
    · simp [Win64.regOne, Win64Dev.validate_cron_expression, hsp]
    · simp [Win64.regOne, Win64Dev.validate_cron_expression, hsp]
    · simp [Win64.regOne, Win64Dev.validate_cron_expression, hsp]
    · simp [Win64.regOne, Win64Dev.validate_cron_expression, hsp]
    · by_cases hct : ct m hr (Win64.noneIfStar d) (Win64.noneIfStar mo)
          (Win64.noneIfStar w) = true
      · simp [Win64.regOne, Win64Dev.validate_cron_expression, hsp, hct]
      · simp [Win64.regOne, Win64Dev.validate_cron_expression, hsp, hct]
    · simp [Win64.regOne, Win64Dev.validate_cron_expression, hsp]
  · intro doc
    simp [DebArm.update_crontab]
    omega

/-- C4 (witness): the win64 agreement evaluated at a concrete acceptance
predicate and cron text, and the deb-arm count at `invalidOnlyDoc`. -/
theorem C4_amended_witness :
    Win64Dev.validate_cron_expression (fun _ _ _ _ _ => true) "0 8 * * 1" = true
    ∧ (DebArm.update_crontab invalidOnlyDoc).length = 1 :=
  ⟨(C4_amended.1 (fun _ _ _ _ _ => true) .station 0 "0 8 * * 1" []).mp
      ⟨⟨"station_0", .station, 0, []⟩, by rfl⟩,
   (C4_amended.2 invalidOnlyDoc).trans (by rfl)⟩

/-- C5: `replace_all` is idempotent: `update_scheduler` discards the
whole previous job table (its result is independent of the previous
jobs), running it again on its own output reproduces the same job table
and warnings, and every registered job's id is derived deterministically
from its `(kind, index-within-kind)`. -/
theorem C5_replace_all_idempotent :
    (∀ (ct : Win64.CtAccept) (doc : CronDoc) (prev1 prev2 : List Win64.Job),
        Win64.update_scheduler ct doc prev1 = Win64.update_scheduler ct doc prev2)
    ∧ (∀ (ct : Win64.CtAccept) (doc : CronDoc) (prev : List Win64.Job),
        Win64.update_scheduler ct doc (Win64.update_scheduler ct doc prev).1
          = Win64.update_scheduler ct doc prev)
    ∧ (∀ (ct : Win64.CtAccept) (doc : CronDoc) (prev : List Win64.Job)
        (j : Win64.Job), j ∈ (Win64.update_scheduler ct doc prev).1 →
          j.id = j.kind.idPrefix ++ toString j.idx) := by
  refine ⟨fun ct doc prev1 prev2 => rfl, fun ct doc prev => rfl, ?_⟩
  intro ct doc prev j hj
  exact (Win64.update_scheduler_mem_enabled hj).2

/-- C5 (witness): the id law evaluated on the job registered for
`enabledOnlyDoc` under an all-accepting trigger constructor. -/
theorem C5_witness :
    (⟨"station_0", .station, 0,
        ["1", "westbound", "goodwin_station", "1"]⟩ : Win64.Job).id
      = JobKind.station.idPrefix ++ toString 0 :=
  C5_replace_all_idempotent.2.2 (fun _ _ _ _ _ => true) enabledOnlyDoc []
    ⟨"station_0", .station, 0, ["1", "westbound", "goodwin_station", "1"]⟩
    (by decide)

/-- C6: disabled entries are inert: every job `update_scheduler`
registers comes from an entry with `enabled = true`; the document of
scenario B (a single disabled entry) yields a successful apply with
`active_jobs = 0` and an empty job table for every trigger-acceptance
behaviour; and a tick only fires registered jobs, so a disabled entry —
never registered — is never fired. -/
theorem C6_disabled_entries_inert :
    (∀ (ct : Win64.CtAccept) (doc : CronDoc) (prev : List Win64.Job)
        (j : Win64.Job), j ∈ (Win64.update_scheduler ct doc prev).1 →
          entryEnabled doc j.kind j.idx = some true)
    ∧ (∀ (ct : Win64.CtAccept) (prev : List Win64.Job),
        Win64.api_schedule_post ct true scenarioBDoc prev = (.success 0, []))
    ∧ (∀ (matchesNow : Win64.Job → Bool) (jobs : List Win64.Job)
        (j : Win64.Job), j ∈ tick matchesNow jobs → j ∈ jobs) := by
  refine ⟨?_, fun ct prev => rfl, ?_⟩
  · intro ct doc prev j hj
    exact (Win64.update_scheduler_mem_enabled hj).1
  · intro m jobs j hj
    exact (List.mem_filter.mp hj).1

/-- C6 (witness): the enabling law evaluated on the job registered for
`enabledOnlyDoc` under an all-accepting trigger constructor. -/
theorem C6_witness :
    entryEnabled enabledOnlyDoc JobKind.station 0 = some true :=
  C6_disabled_entries_inert.1 (fun _ _ _ _ _ => true) enabledOnlyDoc []
    ⟨"station_0", .station, 0, ["1", "westbound", "goodwin_station", "1"]⟩
    (by decide)

/-- C7 (counterexample): `save_json` persists the schedule document by
opening the final path `json/cron.json` directly in truncating write
mode and dumping into it — its trace renames nothing onto the final
path, so there is no write-to-temporary-then-swap atomic overwrite. -/
theorem C7_counterexample :
    save_json_trace cronJsonPath
      = [.openTrunc cronJsonPath, .writeAll cronJsonPath]
    ∧ usesRenameOnto cronJsonPath (save_json_trace cronJsonPath) = false :=
  ⟨rfl, rfl⟩

/-- C7 (amended): `apply` persists the new document by truncating and
rewriting the schedule file in place (no temporary file, no rename),
before replacing the live job set; when the write raises, the handler
returns the error body and the live job table is left unchanged; on
success the reported `active_jobs` is the size of the freshly registered
job set. -/
theorem C7_amended :
    (∀ p : String, usesRenameOnto p (save_json_trace p) = false)
    ∧ (∀ (ct : Win64.CtAccept) (doc : CronDoc) (prev : List Win64.Job),
        Win64.api_schedule_post ct false doc prev = (.error, prev))
    ∧ (∀ (ct : Win64.CtAccept) (doc : CronDoc) (prev : List Win64.Job),
        (Win64.api_schedule_post ct true doc prev).1
          = .success (Win64.update_scheduler ct doc prev).1.length) :=
  ⟨fun p => rfl, fun ct doc prev => rfl, fun ct doc prev => rfl⟩

/-- C8 (counterexample): on missing storage `load_json` returns the
empty JSON list, not a document with three empty lists; and a stored
document with an unknown top-level key is returned unchanged, the
unknown key included — nothing is dropped. -/
theorem C8_counterexample :
    load_json "cron" none = .arr []
    ∧ Json.arr [] ≠ threeEmptyDoc
    ∧ load_json "cron" (some storedWithExtra) = storedWithExtra
    ∧ storedWithExtra ≠ threeEmptyDoc := by
  refine ⟨rfl, ?_, rfl, ?_⟩
  · intro h
    exact Json.noConfusion h
  · intro h
    have hlen := congrArg
      (fun j => match j with | Json.obj kvs => kvs.length | _ => 0) h
    simp [storedWithExtra, threeEmptyDoc] at hlen

/-- C8 (amended): on missing storage `load_json` returns the empty JSON
list `[]`; a stored dict that does not contain the requested name as a
key and does not have exactly one key is returned unchanged — its three
named lists and any unknown top-level keys are all preserved, nothing is
dropped.  (A dict whose only key is unknown is instead unwrapped to that
key's value, and a `cron` top-level key would be unwrapped likewise.) -/
theorem C8_amended :
    load_json "cron" none = Json.arr []
    ∧ (∀ kvs : List (String × Json), lookupKey kvs "cron" = none →
        kvs.length ≠ 1 → load_json "cron" (some (.obj kvs)) = .obj kvs) := by
  refine ⟨rfl, ?_⟩
  intro kvs hlk hlen
  rcases kvs with _ | ⟨kv, _ | ⟨kv2, rest⟩⟩
  · rfl
  · simp at hlen
  · show (match lookupKey (kv :: kv2 :: rest) "cron" with
          | some v => v
          | none => Json.obj (kv :: kv2 :: rest))
        = Json.obj (kv :: kv2 :: rest)
    rw [hlk]

/-- C8 (witness): the preservation law evaluated on the stored document
with an extra top-level key. -/
theorem C8_amended_witness :
    load_json "cron" (some storedWithExtra) = storedWithExtra :=
  C8_amended.2
    [("station_announcements", .arr []), ("promo_announcements", .arr []),
     ("safety_announcements", .arr []), ("extra_key", .num 1)]
    rfl (by decide)

/-- C9: a missing clip is logged and skipped without aborting the rest:
for every existence predicate and file list, the attempted clips are
exactly the existing files in their original order; in particular, for
the 5-clip station sequence whose third clip (the direction clip) is
missing, clips 1, 2, 4 and 5 are still attempted in order. -/
theorem C9_missing_clip_skipped :
    (∀ (ex : String → Bool) (files : List String),
        playedFiles (play_audio_sequence ex files) = files.filter ex)
    ∧ playedFiles (play_audio_sequence
          (fun f => f != "direction/westbound.mp3")
          (station_sequence "1" "westbound" "goodwin_station" "1"))
        = ["chime.mp3", "train/1.mp3", "destination/goodwin_station.mp3",
           "track/1.mp3"] := by
  constructor
  · intro ex files
    induction files with
    | nil => rfl
    | cons f rest ih =>
      rw [playedFiles] at ih
      cases hf : ex f with
      | false =>
        simp [play_audio_sequence, playedFiles, hf, List.filter_cons,
          List.filterMap_cons, ih]
      | true =>
        simp [play_audio_sequence, playedFiles, hf, List.filter_cons,
          List.filterMap_cons, ih]
  · rfl

/-- C10 (counterexample): the authenticated API station trigger starts
the sequence without any preceding clear of the recorded
`current_announcement` marker, contradicting the claim that every
Station/Safety path clears it first. -/
theorem C10_counterexample :
    api_station_announcement_events true = [.startSeq .station]
    ∧ clearPrecedesStart (api_station_announcement_events true) = false :=
  ⟨rfl, rfl⟩

/-- C10 (amended): only the web-form routes (`/play_announcement` and
`/play_safety_announcement`) clear the recorded current-announcement
marker before starting a Station or Safety sequence; the authenticated
API triggers and the scheduled trigger callbacks start their sequences
without clearing it. -/
theorem C10_amended :
    clearPrecedesStart play_announcement_route_events = true
    ∧ clearPrecedesStart play_safety_route_events = true
    ∧ clearPrecedesStart (api_station_announcement_events true) = false
    ∧ clearPrecedesStart (api_safety_announcement_events true) = false
    ∧ clearPrecedesStart scheduled_station_fire_events = false
    ∧ clearPrecedesStart scheduled_safety_fire_events = false :=
  ⟨rfl, rfl, rfl, rfl, rfl, rfl⟩

end TARR
